import Mathlib

/-!
Shallow embedding of the `licitacao` repository (src/extract.py and src/app.py)
and proofs about its specification claims.

A pandas DataFrame is modelled as a list of index-labelled rows, each row an
association list from column names to cells, together with the ordered column
list.  Nested JSON objects (the `orgaoEntidade` / `unidadeOrgao` columns) are
flat bags of scalar fields, as in the source data.  Fallible pandas operations
(KeyError on a missing column, `json_normalize` applied to a non-dict cell,
chained operations on a duplicated column label) are modelled with `Option`.
-/

/-- A scalar cell value: NaN/None (`null`), text, a number, or a parsed
timestamp (`pd.Timestamp`, encoded as a natural number). -/
inductive Scalar where
  | null
  | str (s : String)
  | num (v : Int)
  | timestamp (t : Nat)
  deriving Repr, DecidableEq

/-- A DataFrame cell: either a scalar or a nested JSON object
(a flat attribute bag, as produced by the PNCP API for `orgaoEntidade`
and `unidadeOrgao`). -/
inductive Cell where
  | scalar (v : Scalar)
  | obj (fields : List (String × Scalar))
  deriving Repr, DecidableEq

/-- A row: association list from column name to cell, in column order. -/
abbrev Row := List (String × Cell)

/-- A pandas DataFrame: the ordered column labels and the rows, each row
carrying its integer index label (pandas row index). -/
structure DataFrame where
  cols : List String
  rows : List (Nat × Row)
  deriving Repr, DecidableEq

/-- First-occurrence lookup of a column name in a row (the semantics of
`row[name]` for an association row; first occurrence mirrors the leftmost
column winning for reads in our positional model). -/
def rlookup (n : String) : Row → Option Cell
  | [] => none
  | p :: ps => if p.1 = n then some p.2 else rlookup n ps

/-- Well-formedness of a frame: every row's keys are exactly the column
labels (pandas frames are rectangular by construction). -/
def wfKeys (df : DataFrame) : Prop :=
  ∀ r ∈ df.rows, r.2.map Prod.fst = df.cols

/-- Executable well-formedness check. -/
def wfb (df : DataFrame) : Bool :=
  df.rows.all (fun r => r.2.map Prod.fst == df.cols)

/-- A row of nulls for the given columns (pandas NaN padding when
`pd.concat(axis=1)` outer-joins mismatched indexes). -/
def nullRow (cols : List String) : Row :=
  cols.map (fun c => (c, Cell.scalar Scalar.null))

/-! ### Deduplication (src/extract.py line 121)

`df.drop_duplicates(subset=['valorTotalHomologado', 'objetoCompra'], inplace=True)`:
keep-first deduplication keyed on the tuple of subset-column values, raising
`KeyError` when a subset column is absent.  pandas treats NaN keys as equal,
which our decidable equality on `Option Cell` reproduces. -/

/-- The key tuple of a row for a list of subset columns. -/
def rowKey (keys : List String) (r : Row) : List (Option Cell) :=
  keys.map (fun k => rlookup k r)

/-- Keep-first scan: drop a row whose key was already seen. -/
def dedupAux (keys : List String) : List (Nat × Row) → List (List (Option Cell)) → List (Nat × Row)
  | [], _ => []
  | r :: rs, seen =>
    if rowKey keys r.2 ∈ seen then dedupAux keys rs seen
    else r :: dedupAux keys rs (rowKey keys r.2 :: seen)

/-- `DataFrame.drop_duplicates(subset=keys, inplace=True)` (keep='first'). -/
def dropDuplicatesOn (keys : List String) (df : DataFrame) : Option DataFrame :=
  if keys.all (fun k => k ∈ df.cols) then
    some { df with rows := dedupAux keys df.rows [] }
  else none

/-! ### Date coercion (src/extract.py lines 124-129)

`df[c] = pd.to_datetime(df[c], errors='coerce')`: each cell of the column
becomes a timestamp, or NaT (modelled as `null`) when unparseable.  The
string parser models the ISO format the API uses (`2027-06-18T17:30:00`,
with or without the time part); any other text coerces to null.  Numbers are
accepted as epoch offsets, as `pd.to_datetime` does.  Reading a column that
is absent raises `KeyError`; a duplicated label makes `df[c]` a two-column
frame, which `pd.to_datetime` rejects — both are modelled as `none`. -/

/-- Decimal digit value of a character, if any. -/
def digitVal (c : Char) : Option Nat :=
  if 48 ≤ c.toNat ∧ c.toNat ≤ 57 then some (c.toNat - 48) else none

/-- Parse an ISO `YYYY-MM-DDTHH:MM:SS` or `YYYY-MM-DD` string into an
encoded timestamp. -/
def parseDateTime (s : String) : Option Nat :=
  let enc := fun (y mo d h mi se : Nat) =>
    if 1 ≤ mo ∧ mo ≤ 12 ∧ 1 ≤ d ∧ d ≤ 31 ∧ h < 24 ∧ mi < 60 ∧ se < 60 then
      some (((((y * 13 + mo) * 32 + d) * 24 + h) * 60 + mi) * 60 + se)
    else none
  match s.data with
  | [y1, y2, y3, y4, '-', m1, m2, '-', d1, d2] =>
    match digitVal y1, digitVal y2, digitVal y3, digitVal y4,
          digitVal m1, digitVal m2, digitVal d1, digitVal d2 with
    | some a, some b, some c, some d, some e, some f, some g, some h =>
      enc (((a * 10 + b) * 10 + c) * 10 + d) (e * 10 + f) (g * 10 + h) 0 0 0
    | _, _, _, _, _, _, _, _ => none
  | [y1, y2, y3, y4, '-', m1, m2, '-', d1, d2, 'T',
     h1, h2, ':', mi1, mi2, ':', s1, s2] =>
    match digitVal y1, digitVal y2, digitVal y3, digitVal y4,
          digitVal m1, digitVal m2, digitVal d1, digitVal d2,
          digitVal h1, digitVal h2, digitVal mi1, digitVal mi2,
          digitVal s1, digitVal s2 with
    | some a, some b, some c, some d, some e, some f, some g, some h,
      some i, some j, some k, some l, some m, some o =>
      enc (((a * 10 + b) * 10 + c) * 10 + d) (e * 10 + f) (g * 10 + h)
        (i * 10 + j) (k * 10 + l) (m * 10 + o)
    | _, _, _, _, _, _, _, _, _, _, _, _, _, _ => none
  | _ => none

/-- `pd.to_datetime(cell, errors='coerce')` on a single cell. -/
def toDatetimeCell (cell : Cell) : Cell :=
  match cell with
  | Cell.scalar (Scalar.str s) =>
    match parseDateTime s with
    | some t => Cell.scalar (Scalar.timestamp t)
    | none => Cell.scalar Scalar.null
  | Cell.scalar (Scalar.timestamp t) => Cell.scalar (Scalar.timestamp t)
  | Cell.scalar (Scalar.num v) => Cell.scalar (Scalar.timestamp v.toNat)
  | _ => Cell.scalar Scalar.null

/-- Replace the value of every pair whose key is `c` (under a unique label
this is the single column `c`). -/
def mapPairs (c : String) (f : Cell → Cell) (r : Row) : Row :=
  r.map (fun p => if p.1 = c then (p.1, f p.2) else p)

/-- `c` occurs exactly once among the column labels. -/
def colUnique (df : DataFrame) (c : String) : Bool :=
  df.cols.count c == 1

/-- `df[c] = pd.to_datetime(df[c], errors='coerce')`. -/
def toDatetimeCol (c : String) (df : DataFrame) : Option DataFrame :=
  if colUnique df c then
    some { df with rows := df.rows.map (fun r => (r.1, mapPairs c toDatetimeCell r.2)) }
  else none

/-! ### Column assignment (src/extract.py lines 132 and 144)

`df[dst] = series`: overwrite `dst` in place when it exists, else append it
as the last column.  The series is always read off the same frame
(`df[src]`, optionally mapped), so alignment is positional. -/

/-- The transformed row for `df[dst] = f(df[src])` applied to one row. -/
def assignRow (src dst : String) (f : Cell → Cell) (present : Bool) (r : Row) : Row :=
  let v := f ((rlookup src r).getD (Cell.scalar Scalar.null))
  if present then mapPairs dst (fun _ => v) r else r ++ [(dst, v)]

/-- `df[dst] = df[src].map f` (or a plain copy when `f = id`); `none` models
the KeyError / duplicated-label failure modes of reading `df[src]`. -/
def mapColTo (src dst : String) (f : Cell → Cell) (df : DataFrame) : Option DataFrame :=
  if colUnique df src then
    if dst ∈ df.cols then
      if colUnique df dst then
        some { df with rows := df.rows.map (fun r => (r.1, assignRow src dst f true r.2)) }
      else none
    else
      some { cols := df.cols ++ [dst],
             rows := df.rows.map (fun r => (r.1, assignRow src dst f false r.2)) }
  else none

/-- `df['valor'] = df['valorTotalEstimado']` (src/extract.py line 132). -/
def copyCol (src dst : String) (df : DataFrame) : Option DataFrame :=
  mapColTo src dst (fun c => c) df

/-- The `poder_map` enum table (src/extract.py lines 139-144):
`Series.map` sends values found in the dict to their label and every other
value (including NaN) to NaN. -/
def poderCell (c : Cell) : Cell :=
  match c with
  | Cell.scalar (Scalar.str s) =>
    if s = "E" then Cell.scalar (Scalar.str "Estadual")
    else if s = "M" then Cell.scalar (Scalar.str "Municipal")
    else if s = "N" then Cell.scalar (Scalar.str "Nacional")
    else Cell.scalar Scalar.null
  | _ => Cell.scalar Scalar.null

/-! ### Flattening (src/extract.py lines 135-136 and 147-148) -/

/-- Keep-first deduplication of a key list (the order in which
`pd.json_normalize` discovers field names across records). -/
def dedupFirstAux : List String → List String → List String
  | [], _ => []
  | x :: xs, seen => if x ∈ seen then dedupFirstAux xs seen else x :: dedupFirstAux xs (x :: seen)

/-- The fields of a cell when it is a JSON object; `json_normalize` raises
on anything else (in particular on the NaN cells that index misalignment
introduces). -/
def cellObj : Cell → Option (List (String × Scalar))
  | Cell.obj fl => some fl
  | _ => none

/-- First-occurrence lookup in a flat attribute bag. -/
def slookup (n : String) : List (String × Scalar) → Option Scalar
  | [] => none
  | p :: ps => if p.1 = n then some p.2 else slookup n ps

/-- `pd.json_normalize(series)`: a fresh frame with index `0..k-1`, columns
the field names in order of first appearance, and NaN for absent fields. -/
def json_normalize (cells : List Cell) : Option DataFrame := do
  let objs ← cells.mapM cellObj
  let keys := dedupFirstAux (objs.flatMap (fun fl => fl.map Prod.fst)) []
  some { cols := keys,
         rows := (List.range objs.length).zip (objs.map (fun fl =>
           keys.map (fun k => (k, ((slookup k fl).map Cell.scalar).getD (Cell.scalar Scalar.null))))) }

/-- Read the cells of column `c` (the series `df[c]`). -/
def getColCells (c : String) (df : DataFrame) : Option (List Cell) :=
  if colUnique df c then
    some (df.rows.map (fun r => (rlookup c r.2).getD (Cell.scalar Scalar.null)))
  else none

/-- `df.drop(c, axis=1)`: KeyError when absent, else remove the column. -/
def dropCol (c : String) (df : DataFrame) : Option DataFrame :=
  if c ∈ df.cols then
    some { cols := df.cols.filter (fun x => x ≠ c),
           rows := df.rows.map (fun r => (r.1, r.2.filter (fun p => p.1 ≠ c))) }
  else none

/-- Sorted-union merge with a structural fuel bound (every call site
passes enough fuel to consume both lists). -/
def mergeIdxAux : Nat → List Nat → List Nat → List Nat
  | 0, xs, ys => xs ++ ys
  | fuel + 1, xs, ys =>
    match xs, ys with
    | [], ys => ys
    | x :: xs2, [] => x :: xs2
    | x :: xs2, y :: ys2 =>
      if x < y then x :: mergeIdxAux fuel xs2 (y :: ys2)
      else if y < x then y :: mergeIdxAux fuel (x :: xs2) ys2
      else x :: mergeIdxAux fuel xs2 ys2

/-- Sorted union of two (monotone) index label lists, as pandas forms the
outer-join index of `pd.concat(axis=1)`. -/
def mergeIdx (xs ys : List Nat) : List Nat :=
  mergeIdxAux (xs.length + ys.length) xs ys

/-- The row of a frame at index label `i`, if present. -/
def rowAt (df : DataFrame) (i : Nat) : Option Row :=
  (df.rows.find? (fun r => r.1 = i)).map Prod.snd

/-- `pd.concat([a, b], axis=1)`: outer join on the index; rows missing on
one side are padded with NaN for that side's columns. -/
def concatAxis1 (a b : DataFrame) : DataFrame :=
  let u := mergeIdx (a.rows.map Prod.fst) (b.rows.map Prod.fst)
  { cols := a.cols ++ b.cols,
    rows := u.map (fun i =>
      (i, ((rowAt a i).getD (nullRow a.cols)) ++ ((rowAt b i).getD (nullRow b.cols)))) }

/-! ### The normalization pass (src/extract.py, `process_data`) -/

/-- The steps of `process_data` after the `valor` derivation: flatten
`orgaoEntidade`, derive `poder`, flatten `unidadeOrgao`. -/
def processTail (df : DataFrame) : Option DataFrame := do
  let orgao ← getColCells "orgaoEntidade" df >>= json_normalize
  let df9 ← dropCol "orgaoEntidade" df
  let df10 := concatAxis1 df9 orgao
  let df11 ← mapColTo "poderId" "poder" poderCell df10
  let unidade ← getColCells "unidadeOrgao" df11 >>= json_normalize
  let df12 ← dropCol "unidadeOrgao" df11
  some (concatAxis1 df12 unidade)

/-- `process_data` (src/extract.py lines 114-150): deduplicate on
`(valorTotalHomologado, objetoCompra)`, coerce the six date columns, copy
`valorTotalEstimado` into `valor`, then flatten the two nested JSON columns
and derive `poder`.  `none` models an uncaught exception. -/
def process_data (df : DataFrame) : Option DataFrame := do
  let df1 ← dropDuplicatesOn ["valorTotalHomologado", "objetoCompra"] df
  let df2 ← toDatetimeCol "dataAberturaProposta" df1
  let df3 ← toDatetimeCol "dataEncerramentoProposta" df2
  let df4 ← toDatetimeCol "dataInclusao" df3
  let df5 ← toDatetimeCol "dataPublicacaoPncp" df4
  let df6 ← toDatetimeCol "dataAtualizacao" df5
  let df7 ← toDatetimeCol "dataAtualizacaoGlobal" df6
  let df8 ← copyCol "valorTotalEstimado" "valor" df7
  processTail df8

/-! ### A column-tuple invariant carried through the pipeline -/

/-- `ColsProp ns Q df`: the named columns exist, the frame is rectangular,
and the tuple of their values satisfies `Q` on every row. -/
def ColsProp (ns : List String) (Q : List (Option Cell) → Prop) (df : DataFrame) : Prop :=
  (∀ n ∈ ns, n ∈ df.cols) ∧ wfKeys df ∧
    ∀ r ∈ df.rows, Q (ns.map (fun n => rlookup n r.2))

/-! ### Date-column and valor-column invariants -/

/-- The six date/time columns coerced by `process_data`. -/
def dateCols : List String :=
  ["dataAberturaProposta", "dataEncerramentoProposta", "dataInclusao",
   "dataPublicacaoPncp", "dataAtualizacao", "dataAtualizacaoGlobal"]

/-- A cell is a parsed timestamp or the explicit null marker (NaT). -/
def timeOrNull : Cell → Bool
  | Cell.scalar (Scalar.timestamp _) => true
  | Cell.scalar Scalar.null => true
  | _ => false

/-- Row property for claim C7: every listed value is a timestamp or null. -/
def QTime : List (Option Cell) → Prop :=
  fun l => ∀ o ∈ l, ∃ cell, o = some cell ∧ timeOrNull cell = true

/-- Row property for claim C3: the two listed columns hold the same
defined value. -/
def QVal : List (Option Cell) → Prop :=
  fun l => ∃ v, l = [some v, some v]

/-! ### Fetcher (src/extract.py, `query_all_contracts` and `_fetch_page`) -/

/-- A query parameter value: string or integer. -/
inductive PVal where
  | s (v : String)
  | n (v : Nat)
  deriving Repr, DecidableEq

/-- A Python dict of query parameters. -/
abbrev Dict := List (String × PVal)

/-- `d.copy()`: a fresh dict with the same entries; the loop mutates only
this copy, which the explicit state passing below makes visible. -/
def dictCopy (d : Dict) : Dict := d

/-- `d[k] = v` on a Python dict: overwrite an existing key else append. -/
def dictSet (d : Dict) (k : String) (v : PVal) : Dict :=
  if d.any (fun p => p.1 = k) then d.map (fun p => if p.1 = k then (k, v) else p)
  else d ++ [(k, v)]

/-- First-occurrence dict lookup. -/
def dlookup (k : String) : Dict → Option PVal
  | [] => none
  | p :: ps => if p.1 = k then some p.2 else dlookup k ps

/-- `PAGE_SIZE = 50` (src/extract.py line 8). -/
def PAGE_SIZE : Nat := 50

/-- The outcome the HTTP layer produces for one page request: a raised
`RequestException` (timeout, DNS failure, non-2xx via `raise_for_status`),
a JSON body without a `data` field, or a good page. -/
inductive PageResult (α : Type) where
  | httpError
  | noData
  | ok (data : List α) (paginasRestantes : Nat) (totalPaginas : Nat)
  deriving Repr, DecidableEq

/-- `_fetch_page` (src/extract.py lines 64-83): both failure branches are
caught and surfaced as `None`. -/
def fetch_page {α : Type} (server : Nat → PageResult α) (page : Nat) :
    Option (List α × Nat × Nat) :=
  match server page with
  | PageResult.ok data rest total => some (data, rest, total)
  | PageResult.httpError => none
  | PageResult.noData => none

/-- The query dict of one page request: a fresh copy of the caller's
params with `pagina` and `tamanhoPagina` set (src/extract.py lines 29-31). -/
def buildQuery (params : Dict) (page : Nat) : Dict :=
  dictSet (dictSet (dictCopy params) "pagina" (PVal.n page)) "tamanhoPagina" (PVal.n PAGE_SIZE)

/-- The pagination loop of `query_all_contracts` (src/extract.py lines
28-53), with explicit state passing for the caller's dict and fuel for the
unbounded `while True`.  Returns the dict state after the loop, the trace
of issued request dicts, and the accumulated data (`none` for the
`return None` paths — a failed page — or when fuel runs out). -/
def queryLoop {α : Type} (server : Nat → PageResult α) (params : Dict)
    (page : Nat) : Nat → Dict × List Dict × Option (List α)
  | 0 => (params, [], none)
  | fuel + 1 =>
    let qp := buildQuery params page
    match fetch_page server page with
    | none => (params, [qp], none)
    | some (data, rest, _total) =>
      if rest = 0 then (params, [qp], some data)
      else
        match queryLoop server params (page + 1) fuel with
        | (params2, reqs, res) => (params2, qp :: reqs, res.map (fun d => data ++ d))

/-- `query_all_contracts` (src/extract.py lines 10-61): run the loop from
page 1; pages are concatenated in arrival order. -/
def query_all_contracts {α : Type} (server : Nat → PageResult α) (params : Dict)
    (fuel : Nat) : Dict × List Dict × Option (List α) :=
  queryLoop server params 1 fuel

/-! ### Browser/Filter and Exporter (src/app.py) -/

/-- `text.split(';')` on the character list: split into the (possibly
empty) chunks between semicolons. -/
def splitOnSemicolon : List Char → List (List Char)
  | [] => [[]]
  | c :: cs =>
    if c = ';' then [] :: splitOnSemicolon cs
    else
      match splitOnSemicolon cs with
      | [] => [[c]]
      | t :: ts => (c :: t) :: ts

/-- The whitespace characters `str.strip()` removes from this data. -/
def isSpaceChar (c : Char) : Bool :=
  c = ' ' ∨ c = '\t' ∨ c = '\n' ∨ c = '\r' ∨ c = '\x0b' ∨ c = '\x0c'

/-- `token.strip()`: drop leading and trailing whitespace. -/
def trimChars (l : List Char) : List Char :=
  ((l.dropWhile isSpaceChar).reverse.dropWhile isSpaceChar).reverse

/-- `parse_keywords` (src/app.py lines 79-86): split on semicolons, strip
whitespace, discard empty tokens. -/
def parse_keywords (text : String) : List String :=
  if text = "" then []
  else ((splitOnSemicolon text.data).map (fun l => String.mk (trimChars l))).filter
    (fun t => t ≠ "")

/-- ASCII lowercase fold (the effect of `re.IGNORECASE` on this data's
ASCII keywords). -/
def lowerChar (c : Char) : Char :=
  if 65 ≤ c.toNat ∧ c.toNat ≤ 90 then Char.ofNat (c.toNat + 32) else c

/-- One keyword matches a description when it occurs as a case-insensitive
substring (each token is `re.escape`d, so the regex alternative matches
literally; `case=False` is modelled by case-folding both sides). -/
def kwMatches (t s : String) : Bool :=
  decide (List.IsInfix (t.data.map lowerChar) (s.data.map lowerChar))

/-- The row predicate of the keyword filter: `na=False` makes NaN (and any
non-string cell) never match. -/
def rowMatchesKeywords (kws : List String) (o : Option Cell) : Bool :=
  match o with
  | some (Cell.scalar (Scalar.str s)) => kws.any (fun t => kwMatches t s)
  | _ => false

/-- The keyword-filter step of `main_interface` (src/app.py lines 175-179):
inert when no tokens survive parsing; otherwise keep the rows whose
`objetoCompra` contains some token (KeyError when the column is absent,
modelled as `none`). -/
def keywordFilterStep (text : String) (df : DataFrame) : Option DataFrame :=
  if (parse_keywords text).isEmpty then some df
  else if "objetoCompra" ∈ df.cols then
    some { df with
      rows := df.rows.filter (fun r =>
        rowMatchesKeywords (parse_keywords text) (rlookup "objetoCompra" r.2)) }
  else none

/-- The displayed column list (src/app.py lines 181-187): the requested
columns that exist in the frame, in requested order; every column when
none survive. -/
def displayColumnsOf (selected : List String) (df : DataFrame) : List String :=
  if selected.filter (fun c => c ∈ df.cols) = [] then df.cols
  else selected.filter (fun c => c ∈ df.cols)

/-- `df_display = df[display_columns]` (src/app.py line 188). -/
def projectDf (selected : List String) (df : DataFrame) : DataFrame :=
  { cols := displayColumnsOf selected df,
    rows := df.rows.map (fun r =>
      (r.1, (displayColumnsOf selected df).map
        (fun c => (c, (rlookup c r.2).getD (Cell.scalar Scalar.null))))) }

/-- The character class of `illegal_char_re` in `to_excel` (src/app.py
line 57): 0x00-0x08, 0x0B, 0x0C, 0x0E-0x1F. -/
def illegalRanges : List (Nat × Nat) :=
  [(0x00, 0x08), (0x0B, 0x0B), (0x0C, 0x0C), (0x0E, 0x1F)]

/-- Membership of a character in the illegal character class. -/
def isIllegalChar (c : Char) : Bool :=
  illegalRanges.any (fun p => decide (p.1 ≤ c.toNat) && decide (c.toNat ≤ p.2))

/-- `illegal_char_re.sub("", s)`: delete every illegal character. -/
def removeIllegal (s : String) : String :=
  String.mk (s.data.filter (fun c => !(isIllegalChar c)))

/-- `_clean_value` (src/app.py lines 59-62): clean strings, pass every
other cell through. -/
def clean_value (c : Cell) : Cell :=
  match c with
  | Cell.scalar (Scalar.str s) => Cell.scalar (Scalar.str (removeIllegal s))
  | other => other

/-- The in-memory workbook `to_excel` produces: a single named sheet with
a header row from the column labels and the cleaned data rows, without an
index column. -/
structure ExcelFile where
  sheetName : String
  header : List String
  sheetRows : List (List Cell)
  deriving Repr, DecidableEq

/-- `to_excel` (src/app.py lines 54-69): `applymap(_clean_value)`, then
`to_excel(writer, index=False, sheet_name='Biddings')`. -/
def to_excel (df : DataFrame) : ExcelFile :=
  { sheetName := "Biddings",
    header := df.cols,
    sheetRows := df.rows.map (fun r => r.2.map (fun p => clean_value p.2)) }

/-! ### Concrete frames used as witnesses and counterexamples -/

/-- Shorthand for a text cell. -/
def sc (s : String) : Cell := Cell.scalar (Scalar.str s)

/-- Shorthand for a numeric cell. -/
def nc (v : Int) : Cell := Cell.scalar (Scalar.num v)

/-- The empty frame. -/
def dfEmpty : DataFrame := { cols := [], rows := [] }

/-- The columns of the raw snapshot rows used in the samples. -/
def sampleCols : List String :=
  ["valorTotalHomologado", "objetoCompra", "dataAberturaProposta",
   "dataEncerramentoProposta", "dataInclusao", "dataPublicacaoPncp",
   "dataAtualizacao", "dataAtualizacaoGlobal", "valorTotalEstimado",
   "orgaoEntidade", "unidadeOrgao"]

/-- A raw API record with the given homologated value, description and
estimated value; the date cells mix a valid timestamp, a null, and
malformed text. -/
def sampleRow (hom obj est : Cell) : Row :=
  [("valorTotalHomologado", hom), ("objetoCompra", obj),
   ("dataAberturaProposta", sc "2027-06-18T17:30:00"),
   ("dataEncerramentoProposta", sc "2027-06-18T18:30:00"),
   ("dataInclusao", Cell.scalar Scalar.null),
   ("dataPublicacaoPncp", sc "not a date"),
   ("dataAtualizacao", sc "2025-01-02"),
   ("dataAtualizacaoGlobal", sc "2025-01-02T03:04:05"),
   ("valorTotalEstimado", est),
   ("orgaoEntidade", Cell.obj [("razaoSocial", Scalar.str "Org"), ("poderId", Scalar.str "E")]),
   ("unidadeOrgao", Cell.obj [("ufSigla", Scalar.str "SC"), ("municipioNome", Scalar.str "Lages")])]

/-- Two records sharing (estimated value, description) but with distinct
homologated values. -/
def c1Df : DataFrame :=
  { cols := sampleCols,
    rows := [(0, sampleRow (nc 1) (sc "compra de medicamento") (nc 10)),
             (1, sampleRow (nc 2) (sc "compra de medicamento") (nc 10))] }

/-- The clean frame `process_data` produces for `c1Df`. -/
def c1OutW : DataFrame := (process_data c1Df).getD dfEmpty

/-- The `(valorTotalEstimado, objetoCompra)` pair of row `i`. -/
def estObjPair (df : DataFrame) (i : Nat) : Option (Option Cell × Option Cell) :=
  (df.rows.get? i).map (fun r => (rlookup "valorTotalEstimado" r.2, rlookup "objetoCompra" r.2))

/-- A small frame for the amended-C1 witness. -/
def c1wDf : DataFrame :=
  { cols := ["valorTotalHomologado", "objetoCompra"],
    rows := [(0, [("valorTotalHomologado", nc 1), ("objetoCompra", sc "x")]),
             (1, [("valorTotalHomologado", nc 1), ("objetoCompra", sc "x")]),
             (2, [("valorTotalHomologado", nc 2), ("objetoCompra", sc "y")])] }

/-- The deduplicated `c1wDf`. -/
def c1wOut : DataFrame :=
  (dropDuplicatesOn ["valorTotalHomologado", "objetoCompra"] c1wDf).getD dfEmpty

/-- Three records where the first two collide on
`(valorTotalHomologado, objetoCompra)` and the dropped duplicate precedes a
survivor, so the surviving index labels `{0, 2}` are not `0..k-1`. -/
def c2Df : DataFrame :=
  { cols := sampleCols,
    rows := [(0, sampleRow (nc 1) (sc "objeto A") (nc 10)),
             (1, sampleRow (nc 1) (sc "objeto A") (nc 11)),
             (2, sampleRow (nc 2) (sc "objeto B") (nc 12))] }

/-- Two distinct records for the C3 witness. -/
def c3Df : DataFrame :=
  { cols := sampleCols,
    rows := [(0, sampleRow (nc 1) (sc "material hospitalar") (nc 100)),
             (1, sampleRow (nc 2) (sc "obra de engenharia") (nc 200))] }

/-- The clean frame `process_data` produces for `c3Df`. -/
def c3OutW : DataFrame := (process_data c3Df).getD dfEmpty

/-- Two distinct records for the C7 witness. -/
def c7Df : DataFrame :=
  { cols := sampleCols,
    rows := [(0, sampleRow (nc 1) (sc "insumo agricola") (nc 300)),
             (1, sampleRow (nc 2) (sc "servico de limpeza") (nc 400))] }

/-- The clean frame `process_data` produces for `c7Df`. -/
def c7OutW : DataFrame := (process_data c7Df).getD dfEmpty

/-- A server whose pages 1 and 2 report remaining pages and whose page 3
reports `paginasRestantes = 0`. -/
def c4Server : Nat → PageResult Nat :=
  fun i => if i ≤ 2 then PageResult.ok [i] (3 - i) 3 else PageResult.ok [i] 0 3

/-- A parameter bag like the one `main` builds. -/
def c4Params : Dict := [("dataFinal", PVal.s "20400618")]

/-- A server whose page 1 succeeds with pages remaining and whose page 2
raises at the HTTP layer. -/
def c5Server : Nat → PageResult Nat :=
  fun i => if i = 1 then PageResult.ok [i] 5 3 else PageResult.httpError

/-- Rows for the keyword-filter witness: a matching description, a missing
description, and a non-matching description. -/
def c6Df : DataFrame :=
  { cols := ["objetoCompra", "valor"],
    rows := [(0, [("objetoCompra", sc "Compra de MEDICAMENTO hospitalar"), ("valor", nc 5)]),
             (1, [("objetoCompra", Cell.scalar Scalar.null), ("valor", nc 6)]),
             (2, [("objetoCompra", sc "obra de pavimentacao"), ("valor", nc 7)])] }

/-- The filtered `c6Df` for the search text `"medicamento; ; insumo"`. -/
def c6OutW : DataFrame := (keywordFilterStep "medicamento; ; insumo" c6Df).getD dfEmpty

/-- A three-column frame for the projection witness. -/
def c8Df : DataFrame :=
  { cols := ["a", "b", "c"],
    rows := [(0, [("a", nc 1), ("b", nc 2), ("c", nc 3)])] }

/-- A one-column frame with a control character in a text cell. -/
def c9Df : DataFrame :=
  { cols := ["desc"],
    rows := [(0, [("desc", sc "a\x0Bb")])] }

theorem wfb_iff (df : DataFrame) : wfb df = true ↔ wfKeys df := by
  simp [wfb, wfKeys, List.all_eq_true]

/-! ### Basic lookup lemmas -/

theorem rlookup_isSome_of_mem_keys {n : String} {r : Row}
    (h : n ∈ r.map Prod.fst) : (rlookup n r).isSome = true := by
  induction r with
  | nil => simp at h
  | cons p ps ih =>
    simp only [List.map_cons, List.mem_cons] at h
    by_cases hp : p.1 = n
    · simp [rlookup, hp]
    · rcases h with h | h
      · exact absurd h.symm hp
      · simpa [rlookup, hp] using ih h

theorem rlookup_append_left {n : String} {r₁ r₂ : Row}
    (h : (rlookup n r₁).isSome = true) :
    rlookup n (r₁ ++ r₂) = rlookup n r₁ := by
  induction r₁ with
  | nil => simp [rlookup] at h
  | cons p ps ih =>
    by_cases hp : p.1 = n
    · simp [rlookup, hp]
    · simp only [rlookup, hp, if_false] at h ⊢
      exact ih h

theorem rlookup_filter_ne {n c : String} (hnc : n ≠ c) (r : Row) :
    rlookup n (r.filter (fun p => p.1 ≠ c)) = rlookup n r := by
  induction r with
  | nil => simp [rlookup]
  | cons p ps ih =>
    simp only [ne_eq, decide_not] at ih ⊢
    by_cases hpc : p.1 = c
    · have hcn : ¬ c = n := fun h => hnc h.symm
      simp [List.filter_cons, hpc, rlookup, hcn, ih]
    · by_cases hpn : p.1 = n
      · simp [List.filter_cons, hpc, rlookup, hpn, hnc]
      · simp [List.filter_cons, hpc, rlookup, hpn, ih]

theorem rlookup_nullRow {n : String} {cols : List String} (h : n ∈ cols) :
    rlookup n (nullRow cols) = some (Cell.scalar Scalar.null) := by
  induction cols with
  | nil => simp at h
  | cons c cs ih =>
    by_cases hc : c = n
    · simp [nullRow, rlookup, hc]
    · rcases List.mem_cons.mp h with h' | h'
      · exact absurd h'.symm hc
      · simpa [nullRow, rlookup, hc] using ih h'

theorem nullRow_keys (cols : List String) : (nullRow cols).map Prod.fst = cols := by
  induction cols with
  | nil => rfl
  | cons c cs ih =>
    simp only [nullRow, List.map_cons] at ih ⊢
    rw [ih]

theorem dedupAux_sublist (keys : List String) :
    ∀ (rs : List (Nat × Row)) (seen : List (List (Option Cell))),
      List.Sublist (dedupAux keys rs seen) rs := by
  intro rs
  induction rs with
  | nil => intro seen; simp [dedupAux]
  | cons r rs ih =>
    intro seen
    by_cases h : rowKey keys r.2 ∈ seen
    · simpa [dedupAux, h] using (ih seen).trans (List.sublist_cons_self r rs)
    · simpa [dedupAux, h] using (ih (rowKey keys r.2 :: seen)).cons₂ r

theorem dedupAux_key_not_seen (keys : List String) :
    ∀ (rs : List (Nat × Row)) (seen : List (List (Option Cell))) (r : Nat × Row),
      r ∈ dedupAux keys rs seen → rowKey keys r.2 ∉ seen := by
  intro rs
  induction rs with
  | nil => intro seen r h; simp [dedupAux] at h
  | cons a rs ih =>
    intro seen r h
    by_cases ha : rowKey keys a.2 ∈ seen
    · simp only [dedupAux, ha, if_true] at h
      exact ih seen r h
    · simp only [dedupAux, ha, if_false] at h
      rcases List.mem_cons.mp h with h' | h'
      · subst h'; exact ha
      · have := ih _ r h'
        exact fun hc => this (List.mem_cons_of_mem _ hc)

theorem dedupAux_pairwise_keys (keys : List String) :
    ∀ (rs : List (Nat × Row)) (seen : List (List (Option Cell))),
      (dedupAux keys rs seen).Pairwise
        (fun a b => rowKey keys a.2 ≠ rowKey keys b.2) := by
  intro rs
  induction rs with
  | nil => intro seen; simp [dedupAux]
  | cons a rs ih =>
    intro seen
    by_cases ha : rowKey keys a.2 ∈ seen
    · simpa [dedupAux, ha] using ih seen
    · simp only [dedupAux, ha, if_false]
      refine List.Pairwise.cons ?_ (ih _)
      intro b hb
      have := dedupAux_key_not_seen keys rs _ b hb
      intro hc
      exact this (by rw [← hc]; exact List.mem_cons_self _ _)

theorem dedupAux_first_occurrence (keys : List String) :
    ∀ (rs : List (Nat × Row)) (seen : List (List (Option Cell))),
      (rs.map Prod.fst).Pairwise (· < ·) →
      ∀ a ∈ rs, rowKey keys a.2 ∉ seen →
        ∃ b ∈ dedupAux keys rs seen,
          rowKey keys b.2 = rowKey keys a.2 ∧ b.1 ≤ a.1 := by
  intro rs
  induction rs with
  | nil => intro seen _ a ha; simp at ha
  | cons r rs ih =>
    intro seen hsort a ha hnot
    rw [List.map_cons] at hsort
    have hpc := List.pairwise_cons.mp hsort
    have hsort' : (rs.map Prod.fst).Pairwise (· < ·) := hpc.2
    by_cases hr : rowKey keys r.2 ∈ seen
    · simp only [dedupAux, hr, if_true]
      rcases List.mem_cons.mp ha with h' | h'
      · rw [h'] at hnot; exact absurd hr hnot
      · exact ih seen hsort' a h' hnot
    · simp only [dedupAux, hr, if_false]
      rcases List.mem_cons.mp ha with h' | h'
      · exact ⟨r, List.mem_cons_self _ _, by rw [h'], by rw [h']⟩
      · by_cases hk : rowKey keys a.2 = rowKey keys r.2
        · refine ⟨r, List.mem_cons_self _ _, hk.symm, ?_⟩
          exact le_of_lt (hpc.1 a.1 (List.mem_map_of_mem Prod.fst h'))
        · have hnot' : rowKey keys a.2 ∉ rowKey keys r.2 :: seen := by
            intro hc
            rcases List.mem_cons.mp hc with hc | hc
            · exact hk hc
            · exact hnot hc
          rcases ih _ hsort' a h' hnot' with ⟨b, hb, hbk, hble⟩
          exact ⟨b, List.mem_cons_of_mem _ hb, hbk, hble⟩

/-! ### Small lookup/key lemmas for the pipeline steps -/

theorem rlookup_none_of_not_mem_keys {n : String} {r : Row}
    (h : n ∉ r.map Prod.fst) : rlookup n r = none := by
  induction r with
  | nil => rfl
  | cons p ps ih =>
    simp only [List.map_cons, List.mem_cons] at h
    push_neg at h
    have hp : ¬ p.1 = n := fun hc => h.1 hc.symm
    simp [rlookup, hp, ih h.2]

theorem rlookup_append_right {n : String} {r₁ r₂ : Row}
    (h : rlookup n r₁ = none) : rlookup n (r₁ ++ r₂) = rlookup n r₂ := by
  induction r₁ with
  | nil => rfl
  | cons p ps ih =>
    by_cases hp : p.1 = n
    · simp [rlookup, hp] at h
    · simp only [rlookup, hp, if_false, List.cons_append] at h ⊢
      exact ih h

theorem mapPairs_keys (c : String) (f : Cell → Cell) (r : Row) :
    (mapPairs c f r).map Prod.fst = r.map Prod.fst := by
  induction r with
  | nil => rfl
  | cons p ps ih =>
    by_cases hp : p.1 = c
    · simp [mapPairs, hp] at ih ⊢; exact ih
    · simp [mapPairs, hp] at ih ⊢; exact ih

theorem rlookup_mapPairs_ne {n c : String} (hnc : n ≠ c) (f : Cell → Cell) (r : Row) :
    rlookup n (mapPairs c f r) = rlookup n r := by
  induction r with
  | nil => rfl
  | cons p ps ih =>
    have hcn : ¬ c = n := fun h => hnc h.symm
    simp only [mapPairs, List.map_cons] at ih ⊢
    by_cases hp : p.1 = c
    · simp [hp, rlookup, hcn, ih]
    · by_cases hpn : p.1 = n
      · simp [hp, rlookup, hpn, hnc]
      · simp [hp, rlookup, hpn, ih]

theorem rlookup_mapPairs_self (c : String) (f : Cell → Cell) (r : Row) :
    rlookup c (mapPairs c f r) = (rlookup c r).map f := by
  induction r with
  | nil => rfl
  | cons p ps ih =>
    by_cases hp : p.1 = c
    · simp [mapPairs, hp, rlookup]
    · simp [mapPairs, hp, rlookup] at ih ⊢
      exact ih

theorem map_fst_filter_ne (c : String) (r : Row) :
    (r.filter (fun p => p.1 ≠ c)).map Prod.fst = (r.map Prod.fst).filter (fun x => x ≠ c) := by
  induction r with
  | nil => rfl
  | cons p ps ih =>
    simp only [ne_eq, decide_not] at ih ⊢
    by_cases hp : p.1 = c
    · simp [List.filter_cons, hp, ih]
    · simp [List.filter_cons, hp, ih]

theorem map_fst_map_pair {β : Type} (keys : List String) (g : String → β) :
    (keys.map (fun k => (k, g k))).map Prod.fst = keys := by
  induction keys with
  | nil => rfl
  | cons k ks ih =>
    simp only [List.map_cons] at ih ⊢
    rw [ih]

/-! ### Well-formedness preservation -/

theorem wfKeys_dropDuplicatesOn {keys : List String} {df out : DataFrame}
    (h : dropDuplicatesOn keys df = some out) (hwf : wfKeys df) : wfKeys out := by
  unfold dropDuplicatesOn at h
  by_cases hall : keys.all (fun k => k ∈ df.cols) = true
  · rw [if_pos hall] at h
    cases h
    intro r hr
    exact hwf r ((dedupAux_sublist keys df.rows []).subset hr)
  · rw [if_neg hall] at h; cases h

theorem dropDuplicatesOn_cols {keys : List String} {df out : DataFrame}
    (h : dropDuplicatesOn keys df = some out) : out.cols = df.cols := by
  unfold dropDuplicatesOn at h
  by_cases hall : keys.all (fun k => k ∈ df.cols) = true
  · rw [if_pos hall] at h; cases h; rfl
  · rw [if_neg hall] at h; cases h

theorem toDatetimeCol_elim {c : String} {df out : DataFrame}
    (h : toDatetimeCol c df = some out) :
    out.cols = df.cols ∧
      out.rows = df.rows.map (fun r => (r.1, mapPairs c toDatetimeCell r.2)) := by
  unfold toDatetimeCol at h
  by_cases hu : colUnique df c = true
  · rw [if_pos hu] at h; cases h; exact ⟨rfl, rfl⟩
  · rw [if_neg hu] at h; cases h

theorem wfKeys_toDatetimeCol {c : String} {df out : DataFrame}
    (h : toDatetimeCol c df = some out) (hwf : wfKeys df) : wfKeys out := by
  obtain ⟨hc, hr⟩ := toDatetimeCol_elim h
  intro r hrm
  rw [hr] at hrm
  rcases List.mem_map.mp hrm with ⟨a, ha, rfl⟩
  rw [hc]
  simpa [mapPairs_keys] using hwf a ha

theorem wfKeys_dropCol {c : String} {df out : DataFrame}
    (h : dropCol c df = some out) (hwf : wfKeys df) : wfKeys out := by
  unfold dropCol at h
  by_cases hc : c ∈ df.cols
  · rw [if_pos hc] at h
    cases h
    intro r hrm
    rcases List.mem_map.mp hrm with ⟨a, ha, rfl⟩
    simp only [map_fst_filter_ne]
    rw [hwf a ha]
  · rw [if_neg hc] at h; cases h

theorem wfKeys_json_normalize {cells : List Cell} {out : DataFrame}
    (h : json_normalize cells = some out) : wfKeys out := by
  unfold json_normalize at h
  cases hobjs : cells.mapM cellObj with
  | none => rw [hobjs] at h; cases h
  | some objs =>
    rw [hobjs] at h
    simp only [Option.bind_some, Option.some.injEq] at h
    cases h
    intro r hrm
    have h2 := (List.of_mem_zip hrm).2
    rcases List.mem_map.mp h2 with ⟨fl, _, hfl⟩
    rw [← hfl]
    exact map_fst_map_pair _ _

theorem wfKeys_concatAxis1 {a b : DataFrame}
    (ha : wfKeys a) (hb : wfKeys b) : wfKeys (concatAxis1 a b) := by
  intro r hrm
  simp only [concatAxis1, List.mem_map] at hrm
  rcases hrm with ⟨i, _, rfl⟩
  simp only [List.map_append]
  have hl : ((rowAt a i).getD (nullRow a.cols)).map Prod.fst = a.cols := by
    cases hfind : rowAt a i with
    | none => simp [nullRow_keys]
    | some row =>
      unfold rowAt at hfind
      cases hf : a.rows.find? (fun r => r.1 = i) with
      | none => rw [hf] at hfind; cases hfind
      | some pr =>
        rw [hf] at hfind
        cases hfind
        simpa using ha pr (List.mem_of_find?_eq_some hf)
  have hr : ((rowAt b i).getD (nullRow b.cols)).map Prod.fst = b.cols := by
    cases hfind : rowAt b i with
    | none => simp [nullRow_keys]
    | some row =>
      unfold rowAt at hfind
      cases hf : b.rows.find? (fun r => r.1 = i) with
      | none => rw [hf] at hfind; cases hfind
      | some pr =>
        rw [hf] at hfind
        cases hfind
        simpa using hb pr (List.mem_of_find?_eq_some hf)
  rw [hl, hr]
  rfl

theorem mapColTo_elim_present {src dst : String} {f : Cell → Cell} {df out : DataFrame}
    (h : mapColTo src dst f df = some out) (hdst : dst ∈ df.cols) :
    out.cols = df.cols ∧
      out.rows = df.rows.map (fun r => (r.1, assignRow src dst f true r.2)) := by
  unfold mapColTo at h
  by_cases hsrc : colUnique df src = true
  · rw [if_pos hsrc, if_pos hdst] at h
    by_cases hu : colUnique df dst = true
    · rw [if_pos hu] at h
      cases h
      exact ⟨rfl, rfl⟩
    · rw [if_neg hu] at h; cases h
  · rw [if_neg hsrc] at h; cases h

theorem mapColTo_elim_absent {src dst : String} {f : Cell → Cell} {df out : DataFrame}
    (h : mapColTo src dst f df = some out) (hdst : dst ∉ df.cols) :
    out.cols = df.cols ++ [dst] ∧
      out.rows = df.rows.map (fun r => (r.1, assignRow src dst f false r.2)) := by
  unfold mapColTo at h
  by_cases hsrc : colUnique df src = true
  · rw [if_pos hsrc, if_neg hdst] at h
    cases h
    exact ⟨rfl, rfl⟩
  · rw [if_neg hsrc] at h; cases h

theorem wfKeys_mapColTo {src dst : String} {f : Cell → Cell} {df out : DataFrame}
    (h : mapColTo src dst f df = some out) (hwf : wfKeys df) : wfKeys out := by
  by_cases hdst : dst ∈ df.cols
  · obtain ⟨hc, hr⟩ := mapColTo_elim_present h hdst
    intro r hrm
    rw [hr] at hrm
    rcases List.mem_map.mp hrm with ⟨a, ha, rfl⟩
    rw [hc]
    simpa [assignRow, mapPairs_keys] using hwf a ha
  · obtain ⟨hc, hr⟩ := mapColTo_elim_absent h hdst
    intro r hrm
    rw [hr] at hrm
    rcases List.mem_map.mp hrm with ⟨a, ha, rfl⟩
    rw [hc]
    simp only [assignRow, Bool.false_eq_true, if_false, List.map_append]
    rw [hwf a ha]
    rfl

theorem dropCol_elim {c : String} {df out : DataFrame}
    (h : dropCol c df = some out) :
    out.cols = df.cols.filter (fun x => x ≠ c) ∧
      out.rows = df.rows.map (fun r => (r.1, r.2.filter (fun p => p.1 ≠ c))) := by
  unfold dropCol at h
  by_cases hc : c ∈ df.cols
  · rw [if_pos hc] at h; cases h; exact ⟨rfl, rfl⟩
  · rw [if_neg hc] at h; cases h

theorem colsProp_dropCol {ns : List String} {Q : List (Option Cell) → Prop}
    {c : String} {df out : DataFrame}
    (hne : ∀ n ∈ ns, n ≠ c) (h : dropCol c df = some out)
    (hP : ColsProp ns Q df) : ColsProp ns Q out := by
  obtain ⟨hcols, hrows⟩ := dropCol_elim h
  refine ⟨?_, wfKeys_dropCol h hP.2.1, ?_⟩
  · intro n hn
    rw [hcols]
    simp only [List.mem_filter, decide_eq_true_eq, ne_eq]
    exact ⟨hP.1 n hn, hne n hn⟩
  · intro r hrm
    rw [hrows] at hrm
    rcases List.mem_map.mp hrm with ⟨a, ha, rfl⟩
    have : ns.map (fun n => rlookup n (a.2.filter (fun p => p.1 ≠ c))) =
        ns.map (fun n => rlookup n a.2) :=
      List.map_congr_left (fun n hn => rlookup_filter_ne (hne n hn) a.2)
    rw [this]
    exact hP.2.2 a ha

theorem rowAt_mem {df : DataFrame} {i : Nat} {r : Row}
    (h : rowAt df i = some r) : (i, r) ∈ df.rows := by
  unfold rowAt at h
  cases hf : df.rows.find? (fun r => r.1 = i) with
  | none => rw [hf] at h; cases h
  | some pr =>
    rw [hf] at h
    cases h
    have hmem := List.mem_of_find?_eq_some hf
    have hi : pr.1 = i := by
      have := List.find?_some hf
      simpa using this
    have : pr = (i, pr.2) := by
      cases pr; simp at hi ⊢; exact hi
    rw [← this]
    exact hmem

theorem colsProp_concatAxis1 {ns : List String} {Q : List (Option Cell) → Prop}
    {a b : DataFrame} (hb : wfKeys b)
    (hQnull : Q (ns.map (fun _ => some (Cell.scalar Scalar.null))))
    (hP : ColsProp ns Q a) : ColsProp ns Q (concatAxis1 a b) := by
  refine ⟨?_, wfKeys_concatAxis1 hP.2.1 hb, ?_⟩
  · intro n hn
    show n ∈ a.cols ++ b.cols
    exact List.mem_append_left _ (hP.1 n hn)
  · intro r hrm
    simp only [concatAxis1, List.mem_map] at hrm
    rcases hrm with ⟨i, _, rfl⟩
    show Q (ns.map (fun n => rlookup n
      ((rowAt a i).getD (nullRow a.cols) ++ (rowAt b i).getD (nullRow b.cols))))
    cases hra : rowAt a i with
    | some l₀ =>
      have hl₀ : (i, l₀) ∈ a.rows := rowAt_mem hra
      have hkeys : l₀.map Prod.fst = a.cols := hP.2.1 (i, l₀) hl₀
      show Q (ns.map (fun n => rlookup n (l₀ ++ (rowAt b i).getD (nullRow b.cols))))
      have heq : ns.map (fun n => rlookup n (l₀ ++ (rowAt b i).getD (nullRow b.cols))) =
          ns.map (fun n => rlookup n l₀) := by
        refine List.map_congr_left (fun n hn => ?_)
        exact rlookup_append_left
          (rlookup_isSome_of_mem_keys (by rw [hkeys]; exact hP.1 n hn))
      rw [heq]
      exact hP.2.2 (i, l₀) hl₀
    | none =>
      show Q (ns.map (fun n => rlookup n (nullRow a.cols ++ (rowAt b i).getD (nullRow b.cols))))
      have heq : ns.map (fun n => rlookup n (nullRow a.cols ++ (rowAt b i).getD (nullRow b.cols))) =
          ns.map (fun _ => some (Cell.scalar Scalar.null)) := by
        refine List.map_congr_left (fun n hn => ?_)
        have hmem : n ∈ a.cols := hP.1 n hn
        have hsome : (rlookup n (nullRow a.cols)).isSome = true := by
          rw [rlookup_nullRow hmem]; rfl
        rw [rlookup_append_left hsome, rlookup_nullRow hmem]
      rw [heq]
      exact hQnull

theorem colsProp_mapColTo {ns : List String} {Q : List (Option Cell) → Prop}
    {src dst : String} {f : Cell → Cell} {df out : DataFrame}
    (hne : ∀ n ∈ ns, n ≠ dst) (h : mapColTo src dst f df = some out)
    (hP : ColsProp ns Q df) : ColsProp ns Q out := by
  by_cases hdst : dst ∈ df.cols
  · obtain ⟨hc, hr⟩ := mapColTo_elim_present h hdst
    refine ⟨fun n hn => by rw [hc]; exact hP.1 n hn, wfKeys_mapColTo h hP.2.1, ?_⟩
    intro r hrm
    rw [hr] at hrm
    rcases List.mem_map.mp hrm with ⟨a, ha, rfl⟩
    have : ns.map (fun n => rlookup n (assignRow src dst f true a.2)) =
        ns.map (fun n => rlookup n a.2) := by
      refine List.map_congr_left (fun n hn => ?_)
      simp only [assignRow, if_true]
      exact rlookup_mapPairs_ne (hne n hn) _ a.2
    rw [this]
    exact hP.2.2 a ha
  · obtain ⟨hc, hr⟩ := mapColTo_elim_absent h hdst
    refine ⟨fun n hn => by rw [hc]; exact List.mem_append_left _ (hP.1 n hn),
      wfKeys_mapColTo h hP.2.1, ?_⟩
    intro r hrm
    rw [hr] at hrm
    rcases List.mem_map.mp hrm with ⟨a, ha, rfl⟩
    have : ns.map (fun n => rlookup n (assignRow src dst f false a.2)) =
        ns.map (fun n => rlookup n a.2) := by
      refine List.map_congr_left (fun n hn => ?_)
      simp only [assignRow, Bool.false_eq_true, if_false]
      exact rlookup_append_left
        (rlookup_isSome_of_mem_keys (by rw [hP.2.1 a ha]; exact hP.1 n hn))
    rw [this]
    exact hP.2.2 a ha

theorem colsProp_processTail {ns : List String} {Q : List (Option Cell) → Prop}
    {df out : DataFrame}
    (hne : ∀ n ∈ ns, n ≠ "orgaoEntidade" ∧ n ≠ "unidadeOrgao" ∧ n ≠ "poder")
    (hQnull : Q (ns.map (fun _ => some (Cell.scalar Scalar.null))))
    (h : processTail df = some out) (hP : ColsProp ns Q df) : ColsProp ns Q out := by
  simp only [processTail, Option.bind_eq_bind, Option.bind_eq_some] at h
  obtain ⟨orgao, horgao, df9, hdf9, df11, hdf11, unidade, hunidade, df12, hdf12, hout⟩ := h
  rw [Option.some_inj] at hout
  have horgWf : wfKeys orgao := by
    rcases horgao with ⟨cellsO, _, hjn⟩
    exact wfKeys_json_normalize hjn
  have huniWf : wfKeys unidade := by
    rcases hunidade with ⟨cellsU, _, hjn⟩
    exact wfKeys_json_normalize hjn
  have h9 : ColsProp ns Q df9 :=
    colsProp_dropCol (fun n hn => (hne n hn).1) hdf9 hP
  have h10 : ColsProp ns Q (concatAxis1 df9 orgao) :=
    colsProp_concatAxis1 horgWf hQnull h9
  have h11 : ColsProp ns Q df11 :=
    colsProp_mapColTo (fun n hn => (hne n hn).2.2) hdf11 h10
  have h12 : ColsProp ns Q df12 :=
    colsProp_dropCol (fun n hn => (hne n hn).2.1) hdf12 h11
  rw [← hout]
  exact colsProp_concatAxis1 huniWf hQnull h12

theorem timeOrNull_toDatetimeCell (c : Cell) : timeOrNull (toDatetimeCell c) = true := by
  cases c with
  | obj fl => rfl
  | scalar v =>
    cases v with
    | null => rfl
    | num n => rfl
    | timestamp t => rfl
    | str s =>
      unfold toDatetimeCell
      rcases hp : parseDateTime s with _ | t <;> simp [hp, timeOrNull]

theorem qTime_null (ns : List String) :
    QTime (ns.map (fun _ => some (Cell.scalar Scalar.null))) := by
  intro o ho
  rcases List.mem_map.mp ho with ⟨n, _, rfl⟩
  exact ⟨_, rfl, rfl⟩

theorem colUnique_mem {df : DataFrame} {c : String}
    (h : colUnique df c = true) : c ∈ df.cols := by
  unfold colUnique at h
  have hcount : df.cols.count c = 1 := by
    simpa using h
  exact List.count_pos_iff.mp (by rw [hcount]; exact Nat.one_pos)

theorem toDatetimeCol_unique {c : String} {df out : DataFrame}
    (h : toDatetimeCol c df = some out) : colUnique df c = true := by
  unfold toDatetimeCol at h
  by_cases hu : colUnique df c = true
  · exact hu
  · rw [if_neg hu] at h; cases h

theorem colsProp_toDatetimeCol {ns : List String} {Q : List (Option Cell) → Prop}
    {c : String} {df out : DataFrame}
    (hne : ∀ n ∈ ns, n ≠ c) (h : toDatetimeCol c df = some out)
    (hP : ColsProp ns Q df) : ColsProp ns Q out := by
  obtain ⟨hc, hr⟩ := toDatetimeCol_elim h
  refine ⟨fun n hn => by rw [hc]; exact hP.1 n hn, wfKeys_toDatetimeCol h hP.2.1, ?_⟩
  intro r hrm
  rw [hr] at hrm
  rcases List.mem_map.mp hrm with ⟨a, ha, rfl⟩
  have heq : ns.map (fun n => rlookup n (mapPairs c toDatetimeCell a.2)) =
      ns.map (fun n => rlookup n a.2) :=
    List.map_congr_left (fun n hn => rlookup_mapPairs_ne (hne n hn) _ a.2)
  show Q (ns.map (fun n => rlookup n (mapPairs c toDatetimeCell a.2)))
  rw [heq]
  exact hP.2.2 a ha

theorem toDatetimeCol_self {c : String} {df out : DataFrame}
    (h : toDatetimeCol c df = some out) (hwf : wfKeys df) :
    ColsProp [c] QTime out := by
  have hu : colUnique df c = true := toDatetimeCol_unique h
  have hcmem : c ∈ df.cols := colUnique_mem hu
  obtain ⟨hc, hr⟩ := toDatetimeCol_elim h
  refine ⟨fun n hn => by rw [hc]; rcases List.mem_singleton.mp hn with rfl; exact hcmem,
    wfKeys_toDatetimeCol h hwf, ?_⟩
  intro r hrm
  rw [hr] at hrm
  rcases List.mem_map.mp hrm with ⟨a, ha, rfl⟩
  intro o ho
  rcases List.mem_map.mp ho with ⟨n, hn, rfl⟩
  rcases List.mem_singleton.mp hn with rfl
  show ∃ cell, rlookup n (mapPairs n toDatetimeCell a.2) = some cell ∧ timeOrNull cell = true
  rw [rlookup_mapPairs_self]
  have hsome : (rlookup n a.2).isSome = true :=
    rlookup_isSome_of_mem_keys (by rw [hwf a ha]; exact hcmem)
  rcases Option.isSome_iff_exists.mp hsome with ⟨x, hx⟩
  rw [hx]
  exact ⟨toDatetimeCell x, rfl, timeOrNull_toDatetimeCell x⟩

theorem copyCol_establishes {src dst : String} {df out : DataFrame}
    (hne : src ≠ dst)
    (h : mapColTo src dst (fun c => c) df = some out) (hwf : wfKeys df) :
    ColsProp [dst, src] QVal out := by
  have hsrc : colUnique df src = true := by
    unfold mapColTo at h
    by_cases hs : colUnique df src = true
    · exact hs
    · rw [if_neg hs] at h; cases h
  have hsrcmem : src ∈ df.cols := colUnique_mem hsrc
  have hdn : dst ≠ src := fun hc => hne hc.symm
  by_cases hdst : dst ∈ df.cols
  · obtain ⟨hc, hr⟩ := mapColTo_elim_present h hdst
    refine ⟨?_, wfKeys_mapColTo h hwf, ?_⟩
    · intro n hn
      rw [hc]
      rcases List.mem_cons.mp hn with rfl | hn'
      · exact hdst
      · rcases List.mem_singleton.mp hn' with rfl; exact hsrcmem
    · intro r hrm
      rw [hr] at hrm
      rcases List.mem_map.mp hrm with ⟨a, ha, rfl⟩
      have hsrcSome : (rlookup src a.2).isSome = true :=
        rlookup_isSome_of_mem_keys (by rw [hwf a ha]; exact hsrcmem)
      rcases Option.isSome_iff_exists.mp hsrcSome with ⟨x, hx⟩
      have hdstSome : (rlookup dst a.2).isSome = true :=
        rlookup_isSome_of_mem_keys (by rw [hwf a ha]; exact hdst)
      rcases Option.isSome_iff_exists.mp hdstSome with ⟨y, hy⟩
      refine ⟨x, ?_⟩
      show [rlookup dst (assignRow src dst (fun c => c) true a.2),
            rlookup src (assignRow src dst (fun c => c) true a.2)] = [some x, some x]
      simp only [assignRow, if_true]
      rw [rlookup_mapPairs_self, rlookup_mapPairs_ne hne _ a.2, hx, hy]
      simp [hx]
  · obtain ⟨hc, hr⟩ := mapColTo_elim_absent h hdst
    refine ⟨?_, wfKeys_mapColTo h hwf, ?_⟩
    · intro n hn
      rw [hc]
      rcases List.mem_cons.mp hn with rfl | hn'
      · exact List.mem_append_right _ (List.mem_singleton_self _)
      · rcases List.mem_singleton.mp hn' with rfl
        exact List.mem_append_left _ hsrcmem
    · intro r hrm
      rw [hr] at hrm
      rcases List.mem_map.mp hrm with ⟨a, ha, rfl⟩
      have hsrcSome : (rlookup src a.2).isSome = true :=
        rlookup_isSome_of_mem_keys (by rw [hwf a ha]; exact hsrcmem)
      rcases Option.isSome_iff_exists.mp hsrcSome with ⟨x, hx⟩
      have hdstNone : rlookup dst a.2 = none :=
        rlookup_none_of_not_mem_keys (by rw [hwf a ha]; exact hdst)
      refine ⟨x, ?_⟩
      show [rlookup dst (assignRow src dst (fun c => c) false a.2),
            rlookup src (assignRow src dst (fun c => c) false a.2)] = [some x, some x]
      simp only [assignRow, Bool.false_eq_true, if_false]
      rw [rlookup_append_right hdstNone, rlookup_append_left (by rw [hx]; rfl), hx]
      simp [rlookup, hx]

/-! ### Elimination helpers for the pipeline heads -/

theorem dropDuplicatesOn_elim {keys : List String} {df out : DataFrame}
    (h : dropDuplicatesOn keys df = some out) :
    out.cols = df.cols ∧ out.rows = dedupAux keys df.rows [] := by
  unfold dropDuplicatesOn at h
  by_cases hall : keys.all (fun k => k ∈ df.cols) = true
  · rw [if_pos hall] at h; cases h; exact ⟨rfl, rfl⟩
  · rw [if_neg hall] at h; cases h

/-- C1 (amended): the deduplication step of `process_data` keys on the
pair `(valorTotalHomologado, objetoCompra)` — not on the estimated value:
the survivors are a subsequence of the input rows (original order kept),
no two survivors share that key pair, and for every input row the survivor
carrying its key pair is the earliest such row (keep-first). -/
theorem C1_dedup_key_is_homologado_objeto (df out : DataFrame)
    (hsort : (df.rows.map Prod.fst).Pairwise (· < ·))
    (h : dropDuplicatesOn ["valorTotalHomologado", "objetoCompra"] df = some out) :
    List.Sublist out.rows df.rows
    ∧ (∀ a ∈ out.rows, ∀ b ∈ out.rows, a.1 ≠ b.1 →
        rowKey ["valorTotalHomologado", "objetoCompra"] a.2
          ≠ rowKey ["valorTotalHomologado", "objetoCompra"] b.2)
    ∧ (∀ a ∈ df.rows, ∃ b ∈ out.rows,
        rowKey ["valorTotalHomologado", "objetoCompra"] b.2
          = rowKey ["valorTotalHomologado", "objetoCompra"] a.2 ∧ b.1 ≤ a.1) := by
  obtain ⟨hc, hr⟩ := dropDuplicatesOn_elim h
  rw [hr]
  refine ⟨dedupAux_sublist _ _ _, ?_, ?_⟩
  · intro a ha b hb hab
    have hpw := dedupAux_pairwise_keys ["valorTotalHomologado", "objetoCompra"] df.rows []
    have hsym : Symmetric (fun x y : Nat × Row =>
        rowKey ["valorTotalHomologado", "objetoCompra"] x.2
          ≠ rowKey ["valorTotalHomologado", "objetoCompra"] y.2) :=
      fun x y hxy hc => hxy hc.symm
    exact List.Pairwise.forall hsym hpw ha hb (fun he => hab (congrArg Prod.fst he))
  · intro a ha
    exact dedupAux_first_occurrence _ df.rows [] hsort a ha (List.not_mem_nil _)

/-- Witness for the amended C1: the dedup of `c1wDf` keeps rows 0 and 2,
first occurrences of their key pairs, in order. -/
theorem C1_dedup_key_witness :
    List.Sublist c1wOut.rows c1wDf.rows
    ∧ (∀ a ∈ c1wOut.rows, ∀ b ∈ c1wOut.rows, a.1 ≠ b.1 →
        rowKey ["valorTotalHomologado", "objetoCompra"] a.2
          ≠ rowKey ["valorTotalHomologado", "objetoCompra"] b.2)
    ∧ (∀ a ∈ c1wDf.rows, ∃ b ∈ c1wOut.rows,
        rowKey ["valorTotalHomologado", "objetoCompra"] b.2
          = rowKey ["valorTotalHomologado", "objetoCompra"] a.2 ∧ b.1 ≤ a.1) :=
  C1_dedup_key_is_homologado_objeto c1wDf c1wOut (by decide) (by rfl)

/-- C1 as stated is false on the code: `c1Df` holds two records sharing
`(valorTotalEstimado, objetoCompra)` but with different homologated
values; `process_data` keeps both, so the clean frame has two rows with an
identical (estimated-value, description) pair. -/
theorem C1_counterexample_estimado_pair_not_unique :
    process_data c1Df = some c1OutW
    ∧ c1OutW.rows.length = 2
    ∧ estObjPair c1OutW 0 = estObjPair c1OutW 1
    ∧ (estObjPair c1OutW 0).isSome = true :=
  ⟨by rfl, by rfl, by rfl, by rfl⟩

/-- C2 evidence (code bug): on `c2Df` the dedup drops row 1 but keeps row
2, so the surviving index labels are not contiguous; `pd.concat(axis=1)`
with the fresh `0..k-1` index of `pd.json_normalize` then misaligns, the
`unidadeOrgao` column of the padded row is NaN, and the second
`json_normalize` raises — `process_data` aborts instead of flattening the
two surviving rows. -/
theorem C2_flatten_misalignment_aborts :
    process_data c2Df = none
    ∧ (dropDuplicatesOn ["valorTotalHomologado", "objetoCompra"] c2Df).map
        (fun d => d.rows.length) = some 2
    ∧ c2Df.rows.length = 3 :=
  ⟨by rfl, by rfl, by rfl⟩

/-- C3: in every clean frame `process_data` produces, the derived `valor`
column is, row for row, a defined copy of the `valorTotalEstimado`
(total-estimated-value) column — the code copies that field, not the
homologated/awarded value. -/
theorem C3_valor_copies_valorTotalEstimado (df out : DataFrame)
    (hwf : wfb df = true) (h : process_data df = some out) :
    ∀ r ∈ out.rows,
      rlookup "valor" r.2 = rlookup "valorTotalEstimado" r.2
      ∧ (rlookup "valor" r.2).isSome = true := by
  simp only [process_data, Option.bind_eq_bind, Option.bind_eq_some] at h
  obtain ⟨df1, h1, df2, h2, df3, h3, df4, h4, df5, h5, df6, h6, df7, h7, df8, h8, ht⟩ := h
  have wf0 : wfKeys df := (wfb_iff df).mp hwf
  have wf1 := wfKeys_dropDuplicatesOn h1 wf0
  have wf2 := wfKeys_toDatetimeCol h2 wf1
  have wf3 := wfKeys_toDatetimeCol h3 wf2
  have wf4 := wfKeys_toDatetimeCol h4 wf3
  have wf5 := wfKeys_toDatetimeCol h5 wf4
  have wf6 := wfKeys_toDatetimeCol h6 wf5
  have wf7 := wfKeys_toDatetimeCol h7 wf6
  unfold copyCol at h8
  have h8p : ColsProp ["valor", "valorTotalEstimado"] QVal df8 :=
    copyCol_establishes (by decide) h8 wf7
  have hout : ColsProp ["valor", "valorTotalEstimado"] QVal out :=
    colsProp_processTail (by decide)
      (by exact ⟨Cell.scalar Scalar.null, rfl⟩) ht h8p
  intro r hr
  rcases hout.2.2 r hr with ⟨v, hv⟩
  simp only [List.map_cons, List.map_nil, List.cons.injEq, and_true] at hv
  obtain ⟨hv1, hv2⟩ := hv
  rw [hv1, hv2]
  exact ⟨rfl, rfl⟩

/-- Witness for C3 at the concrete frame `c3Df`: its first clean row has
`valor` equal to `valorTotalEstimado` and defined. -/
theorem C3_valor_witness :
    ∃ r, r ∈ c3OutW.rows
      ∧ rlookup "valor" r.2 = rlookup "valorTotalEstimado" r.2
      ∧ (rlookup "valor" r.2).isSome = true :=
  ⟨c3OutW.rows.getD 0 (0, []), by decide,
   C3_valor_copies_valorTotalEstimado c3Df c3OutW (by rfl) (by rfl) _ (by decide)⟩

/-- C7: in every clean frame `process_data` produces, every cell of the
six date/time columns is a parsed timestamp or the explicit null marker —
no raw unparsed text remains — and a malformed date cell coerces to null
instead of aborting the pass. -/
theorem C7_date_columns_timestamp_or_null (df out : DataFrame)
    (hwf : wfb df = true) (h : process_data df = some out) :
    ∀ r ∈ out.rows, ∀ c ∈ dateCols,
      ∃ cell, rlookup c r.2 = some cell ∧ timeOrNull cell = true := by
  simp only [process_data, Option.bind_eq_bind, Option.bind_eq_some] at h
  obtain ⟨df1, h1, df2, h2, df3, h3, df4, h4, df5, h5, df6, h6, df7, h7, df8, h8, ht⟩ := h
  have wf0 : wfKeys df := (wfb_iff df).mp hwf
  have wf1 := wfKeys_dropDuplicatesOn h1 wf0
  have wf2 := wfKeys_toDatetimeCol h2 wf1
  have wf3 := wfKeys_toDatetimeCol h3 wf2
  have wf4 := wfKeys_toDatetimeCol h4 wf3
  have wf5 := wfKeys_toDatetimeCol h5 wf4
  have wf6 := wfKeys_toDatetimeCol h6 wf5
  unfold copyCol at h8
  have p1 : ColsProp ["dataAberturaProposta"] QTime df7 :=
    colsProp_toDatetimeCol (by decide) h7 (colsProp_toDatetimeCol (by decide) h6
      (colsProp_toDatetimeCol (by decide) h5 (colsProp_toDatetimeCol (by decide) h4
        (colsProp_toDatetimeCol (by decide) h3 (toDatetimeCol_self h2 wf1)))))
  have p2 : ColsProp ["dataEncerramentoProposta"] QTime df7 :=
    colsProp_toDatetimeCol (by decide) h7 (colsProp_toDatetimeCol (by decide) h6
      (colsProp_toDatetimeCol (by decide) h5 (colsProp_toDatetimeCol (by decide) h4
        (toDatetimeCol_self h3 wf2))))
  have p3 : ColsProp ["dataInclusao"] QTime df7 :=
    colsProp_toDatetimeCol (by decide) h7 (colsProp_toDatetimeCol (by decide) h6
      (colsProp_toDatetimeCol (by decide) h5 (toDatetimeCol_self h4 wf3)))
  have p4 : ColsProp ["dataPublicacaoPncp"] QTime df7 :=
    colsProp_toDatetimeCol (by decide) h7 (colsProp_toDatetimeCol (by decide) h6
      (toDatetimeCol_self h5 wf4))
  have p5 : ColsProp ["dataAtualizacao"] QTime df7 :=
    colsProp_toDatetimeCol (by decide) h7 (toDatetimeCol_self h6 wf5)
  have p6 : ColsProp ["dataAtualizacaoGlobal"] QTime df7 :=
    toDatetimeCol_self h7 wf6
  have q1 : ColsProp ["dataAberturaProposta"] QTime out :=
    colsProp_processTail (by decide) (qTime_null _) ht (colsProp_mapColTo (by decide) h8 p1)
  have q2 : ColsProp ["dataEncerramentoProposta"] QTime out :=
    colsProp_processTail (by decide) (qTime_null _) ht (colsProp_mapColTo (by decide) h8 p2)
  have q3 : ColsProp ["dataInclusao"] QTime out :=
    colsProp_processTail (by decide) (qTime_null _) ht (colsProp_mapColTo (by decide) h8 p3)
  have q4 : ColsProp ["dataPublicacaoPncp"] QTime out :=
    colsProp_processTail (by decide) (qTime_null _) ht (colsProp_mapColTo (by decide) h8 p4)
  have q5 : ColsProp ["dataAtualizacao"] QTime out :=
    colsProp_processTail (by decide) (qTime_null _) ht (colsProp_mapColTo (by decide) h8 p5)
  have q6 : ColsProp ["dataAtualizacaoGlobal"] QTime out :=
    colsProp_processTail (by decide) (qTime_null _) ht (colsProp_mapColTo (by decide) h8 p6)
  intro r hr c hc
  have key : ∀ (cc : String), ColsProp [cc] QTime out →
      ∃ cell, rlookup cc r.2 = some cell ∧ timeOrNull cell = true := by
    intro cc hq
    exact hq.2.2 r hr (rlookup cc r.2) (by simp)
  simp only [dateCols, List.mem_cons, List.not_mem_nil, or_false] at hc
  rcases hc with rfl | rfl | rfl | rfl | rfl | rfl
  · exact key _ q1
  · exact key _ q2
  · exact key _ q3
  · exact key _ q4
  · exact key _ q5
  · exact key _ q6

/-- Witness for C7 at the concrete frame `c7Df` (whose date cells include
a valid ISO timestamp, a null, and the malformed text `"not a date"`):
its first clean row has every date column defined as timestamp-or-null. -/
theorem C7_date_witness :
    ∃ r, r ∈ c7OutW.rows ∧ ∀ c ∈ dateCols,
      ∃ cell, rlookup c r.2 = some cell ∧ timeOrNull cell = true :=
  ⟨c7OutW.rows.getD 0 (0, []), by decide,
   C7_date_columns_timestamp_or_null c7Df c7OutW (by rfl) (by rfl) _ (by decide)⟩

/-! ### Dict and pagination-loop lemmas -/

theorem dlookup_map_set {k : String} {v : PVal} :
    ∀ (d : Dict), d.any (fun p => p.1 = k) = true →
      dlookup k (d.map (fun p => if p.1 = k then (k, v) else p)) = some v := by
  intro d
  induction d with
  | nil => intro h; simp at h
  | cons p ps ih =>
    intro h
    by_cases hp : p.1 = k
    · simp [List.map_cons, hp, dlookup]
    · simp only [List.any_cons, Bool.or_eq_true, decide_eq_true_eq] at h
      rcases h with h | h
      · exact absurd h hp
      · simp only [List.map_cons, if_neg hp, dlookup, hp, if_false]
        exact ih h

theorem dlookup_append_new {k : String} :
    ∀ (d : Dict) (v : PVal), d.any (fun p => p.1 = k) = false →
      dlookup k (d ++ [(k, v)]) = some v := by
  intro d
  induction d with
  | nil => intro v _; simp [dlookup]
  | cons p ps ih =>
    intro v h
    rw [List.any_cons] at h
    rcases Bool.or_eq_false_iff.mp h with ⟨h1, h2⟩
    have hp : ¬ p.1 = k := by simpa using h1
    simp only [List.cons_append, dlookup, hp, if_false]
    exact ih v h2

theorem dlookup_dictSet_self (d : Dict) (k : String) (v : PVal) :
    dlookup k (dictSet d k v) = some v := by
  unfold dictSet
  cases h : d.any (fun p => p.1 = k) with
  | true => simp only [h, if_true]; exact dlookup_map_set d h
  | false => simp only [h, Bool.false_eq_true, if_false]; exact dlookup_append_new d v h

theorem dlookup_map_set_other {k k2 : String} {v : PVal} (hne : k ≠ k2) :
    ∀ (d : Dict),
      dlookup k (d.map (fun p => if p.1 = k2 then (k2, v) else p)) = dlookup k d := by
  intro d
  induction d with
  | nil => rfl
  | cons p ps ih =>
    by_cases hp : p.1 = k2
    · have hpk : ¬ p.1 = k := fun hc => hne (hc ▸ hp)
      have hk2k : ¬ k2 = k := fun hc => hne hc.symm
      simp [List.map_cons, hp, dlookup, hk2k, hpk, ih]
    · by_cases hpk : p.1 = k
      · simp [List.map_cons, hp, dlookup, hpk, hne]
      · simp [List.map_cons, hp, dlookup, hpk, ih]

theorem dlookup_append_single_other {k k2 : String} (hne : k ≠ k2) :
    ∀ (d : Dict) (v : PVal), dlookup k (d ++ [(k2, v)]) = dlookup k d := by
  intro d
  induction d with
  | nil =>
    intro v
    have hk2k : ¬ k2 = k := fun hc => hne hc.symm
    simp [dlookup, hk2k]
  | cons p ps ih =>
    intro v
    by_cases hpk : p.1 = k
    · simp [List.cons_append, dlookup, hpk]
    · simp only [List.cons_append, dlookup, hpk, if_false]
      exact ih v

theorem dlookup_dictSet_other {k k2 : String} (hne : k ≠ k2) (d : Dict) (v : PVal) :
    dlookup k (dictSet d k2 v) = dlookup k d := by
  unfold dictSet
  cases h : d.any (fun p => p.1 = k2) with
  | true =>
    simp only [h, if_true]
    exact dlookup_map_set_other hne d
  | false =>
    simp only [h, Bool.false_eq_true, if_false]
    exact dlookup_append_single_other hne d v

theorem queryLoop_params {α : Type} (server : Nat → PageResult α) (params : Dict) :
    ∀ (fuel page : Nat), (queryLoop server params page fuel).1 = params := by
  intro fuel
  induction fuel with
  | zero => intro page; rfl
  | succ n ih =>
    intro page
    unfold queryLoop
    cases hf : fetch_page server page with
    | none => rfl
    | some t =>
      obtain ⟨data, rest, total⟩ := t
      by_cases hr : rest = 0
      · simp [hr]
      · rcases hq : queryLoop server params (page + 1) n with ⟨p2, reqs, res⟩
        have hp2 : p2 = params := by
          have h2 := ih (page + 1)
          rw [hq] at h2
          exact h2
        simp [hr, hq, hp2]

theorem queryLoop_success {α : Type} (server : Nat → PageResult α) (params : Dict)
    (k : Nat) (hstop : ∃ d t, server k = PageResult.ok d 0 t) :
    ∀ (fuel page : Nat), page ≤ k → k < page + fuel →
      (∀ i, page ≤ i → i < k → ∃ d r t, server i = PageResult.ok d r t ∧ r ≠ 0) →
      (queryLoop server params page fuel).2.1 =
          (List.range (k + 1 - page)).map (fun j => buildQuery params (page + j))
      ∧ (queryLoop server params page fuel).2.2.isSome = true := by
  intro fuel
  induction fuel with
  | zero => intro page h1 h2 _; omega
  | succ n ih =>
    intro page hpk hlt hmid
    by_cases hpage : page = k
    · subst hpage
      rcases hstop with ⟨d, t, hs⟩
      have hf : fetch_page server page = some (d, 0, t) := by
        unfold fetch_page; rw [hs]
      unfold queryLoop
      simp only [hf]
      have hone : page + 1 - page = 1 := by omega
      rw [hone]
      constructor
      · simp [List.range_succ]
      · simp
    · have hplt : page < k := lt_of_le_of_ne hpk hpage
      rcases hmid page (le_refl _) hplt with ⟨d, r, t, hs, hr0⟩
      have hf : fetch_page server page = some (d, r, t) := by
        unfold fetch_page; rw [hs]
      unfold queryLoop
      simp only [hf]
      rw [if_neg hr0]
      rcases hq : queryLoop server params (page + 1) n with ⟨p2, reqs, res⟩
      have ihh := ih (page + 1) (by omega) (by omega)
        (fun i hi1 hi2 => hmid i (by omega) hi2)
      rw [hq] at ihh
      have ihr : reqs =
          (List.range (k + 1 - (page + 1))).map (fun j => buildQuery params (page + 1 + j)) :=
        ihh.1
      have ihs : res.isSome = true := ihh.2
      constructor
      · show buildQuery params page :: reqs = _
        have hm : k + 1 - page = (k + 1 - (page + 1)) + 1 := by omega
        rw [hm, List.range_succ_eq_map, List.map_cons, Nat.add_zero, List.map_map]
        have hfuneq : ∀ j ∈ List.range (k + 1 - (page + 1)),
            buildQuery params (page + 1 + j) =
              ((fun j => buildQuery params (page + j)) ∘ Nat.succ) j := by
          intro j _
          show buildQuery params (page + 1 + j) = buildQuery params (page + (j + 1))
          exact congrArg (buildQuery params) (by omega)
        rw [ihr, List.map_congr_left hfuneq]
      · show (res.map (fun dd => d ++ dd)).isSome = true
        rcases Option.isSome_iff_exists.mp ihs with ⟨x, hx⟩
        rw [hx]
        rfl

theorem queryLoop_failure {α : Type} (server : Nat → PageResult α) (params : Dict)
    (k : Nat) (hfail : fetch_page server k = none) :
    ∀ (fuel page : Nat), page ≤ k → k < page + fuel →
      (∀ i, page ≤ i → i < k → ∃ d r t, server i = PageResult.ok d r t ∧ r ≠ 0) →
      (queryLoop server params page fuel).2.2 = none := by
  intro fuel
  induction fuel with
  | zero => intro page h1 h2 _; omega
  | succ n ih =>
    intro page hpk hlt hmid
    by_cases hpage : page = k
    · subst hpage
      unfold queryLoop
      simp only [hfail]
    · have hplt : page < k := lt_of_le_of_ne hpk hpage
      rcases hmid page (le_refl _) hplt with ⟨d, r, t, hs, hr0⟩
      have hf : fetch_page server page = some (d, r, t) := by
        unfold fetch_page; rw [hs]
      unfold queryLoop
      simp only [hf]
      rw [if_neg hr0]
      rcases hq : queryLoop server params (page + 1) n with ⟨p2, reqs, res⟩
      have ihh := ih (page + 1) (by omega) (by omega)
        (fun i hi1 hi2 => hmid i (by omega) hi2)
      rw [hq] at ihh
      have ihn : res = none := ihh
      show (res.map (fun dd => d ++ dd)) = none
      rw [ihn]
      rfl

/-- C4: for every parameter bag and every server whose pages `1..k-1`
report pages remaining and whose page `k` reports `paginasRestantes = 0`,
`query_all_contracts` issues exactly the requests for pages `1, 2, ..., k`
(strictly increasing from 1), each carrying `tamanhoPagina = 50`, and
succeeds — the `paginasRestantes == 0` response is the only thing that
stops the loop, with no page cap. -/
theorem C4_pagination_strictly_increasing_until_zero (α : Type)
    (server : Nat → PageResult α) (params : Dict) (fuel k : Nat)
    (hk : 1 ≤ k) (hfuel : k ≤ fuel)
    (hmid : ∀ i, 1 ≤ i → i < k → ∃ d r t, server i = PageResult.ok d r t ∧ r ≠ 0)
    (hstop : ∃ d t, server k = PageResult.ok d 0 t) :
    (query_all_contracts server params fuel).2.1 =
        (List.range k).map (fun j => buildQuery params (1 + j))
    ∧ (query_all_contracts server params fuel).2.2.isSome = true
    ∧ ∀ p, dlookup "pagina" (buildQuery params p) = some (PVal.n p)
        ∧ dlookup "tamanhoPagina" (buildQuery params p) = some (PVal.n 50) := by
  have h := queryLoop_success server params k hstop fuel 1 hk (by omega) hmid
  have hr : k + 1 - 1 = k := by omega
  rw [hr] at h
  refine ⟨h.1, h.2, ?_⟩
  intro p
  constructor
  · unfold buildQuery
    rw [dlookup_dictSet_other (by decide)]
    exact dlookup_dictSet_self _ _ _
  · exact dlookup_dictSet_self _ _ _

/-- Witness for C4: the concrete server `c4Server` stops exactly at page 3. -/
theorem C4_pagination_witness :
    (query_all_contracts c4Server c4Params 10).2.1 =
        (List.range 3).map (fun j => buildQuery c4Params (1 + j))
    ∧ (query_all_contracts c4Server c4Params 10).2.2.isSome = true
    ∧ ∀ p, dlookup "pagina" (buildQuery c4Params p) = some (PVal.n p)
        ∧ dlookup "tamanhoPagina" (buildQuery c4Params p) = some (PVal.n 50) :=
  C4_pagination_strictly_increasing_until_zero Nat c4Server c4Params 10 3
    (by decide) (by decide)
    (by
      intro i h1 h2
      interval_cases i
      · exact ⟨[1], 2, 3, by rfl, by decide⟩
      · exact ⟨[2], 1, 3, by rfl, by decide⟩)
    ⟨[3], 3, by rfl⟩

/-- C5: if pages `1..k-1` succeed with pages remaining and page `k` fails
(HTTP-layer error or a body without `data`), `query_all_contracts` returns
`None` — no partial accumulation of the earlier pages escapes, and the
failure is surfaced as a value rather than an exception. -/
theorem C5_page_failure_returns_none (α : Type)
    (server : Nat → PageResult α) (params : Dict) (fuel k : Nat)
    (hk : 1 ≤ k) (hfuel : k ≤ fuel)
    (hmid : ∀ i, 1 ≤ i → i < k → ∃ d r t, server i = PageResult.ok d r t ∧ r ≠ 0)
    (hfail : server k = PageResult.httpError ∨ server k = PageResult.noData) :
    (query_all_contracts server params fuel).2.2 = none := by
  have hf : fetch_page server k = none := by
    unfold fetch_page
    rcases hfail with h | h <;> rw [h]
  exact queryLoop_failure server params k hf fuel 1 hk (by omega) hmid

/-- Witness for C5: `c5Server` fails at page 2 after a successful page 1. -/
theorem C5_page_failure_witness :
    (query_all_contracts c5Server c4Params 10).2.2 = none :=
  C5_page_failure_returns_none Nat c5Server c4Params 10 2
    (by decide) (by decide)
    (by
      intro i h1 h2
      interval_cases i
      exact ⟨[1], 5, 3, by rfl, by decide⟩)
    (Or.inl (by rfl))

/-- C10: `query_all_contracts` never mutates the caller's params dict:
every page request is built on `dictCopy params` before `pagina` and
`tamanhoPagina` are set, so the dict state returned after the whole loop
is the dict that was passed in. -/
theorem C10_params_frame_preserved (α : Type) (server : Nat → PageResult α)
    (params : Dict) (fuel : Nat) :
    (query_all_contracts server params fuel).1 = params :=
  queryLoop_params server params fuel 1

/-- C6: the keyword filter keeps exactly the rows whose `objetoCompra` is
a string containing at least one parsed token as a case-insensitive
substring; a missing (or non-string) description never matches; and when
no tokens survive parsing — empty input or only semicolons/whitespace —
the filter is inert and every row passes. -/
theorem C6_keyword_filter (text : String) (df out : DataFrame)
    (h : keywordFilterStep text df = some out) :
    ∀ r : Nat × Row, r ∈ out.rows ↔
      (r ∈ df.rows ∧ (parse_keywords text = [] ∨
        ∃ t ∈ parse_keywords text, ∃ s,
          rlookup "objetoCompra" r.2 = some (Cell.scalar (Scalar.str s)) ∧
            kwMatches t s = true)) := by
  unfold keywordFilterStep at h
  by_cases hkw : (parse_keywords text).isEmpty = true
  · rw [if_pos hkw] at h
    cases h
    intro r
    have hemp : parse_keywords text = [] := List.isEmpty_iff.mp hkw
    simp [hemp]
  · rw [if_neg hkw] at h
    by_cases hcol : "objetoCompra" ∈ df.cols
    · rw [if_pos hcol] at h
      cases h
      intro r
      constructor
      · intro hr
        have hmf := List.mem_filter.mp hr
        refine ⟨hmf.1, Or.inr ?_⟩
        have hm := hmf.2
        cases hrl : rlookup "objetoCompra" r.2 with
        | none => rw [hrl] at hm; simp [rowMatchesKeywords] at hm
        | some cell =>
          cases cell with
          | obj fl => rw [hrl] at hm; simp [rowMatchesKeywords] at hm
          | scalar v =>
            cases v with
            | str s =>
              rw [hrl] at hm
              simp only [rowMatchesKeywords, List.any_eq_true] at hm
              rcases hm with ⟨t, ht, hts⟩
              exact ⟨t, ht, s, rfl, hts⟩
            | null => rw [hrl] at hm; simp [rowMatchesKeywords] at hm
            | num n => rw [hrl] at hm; simp [rowMatchesKeywords] at hm
            | timestamp tt => rw [hrl] at hm; simp [rowMatchesKeywords] at hm
      · rintro ⟨hmem, hcase⟩
        rcases hcase with hemp | ⟨t, ht, s, hrl, hts⟩
        · exact absurd (List.isEmpty_iff.mpr hemp) hkw
        · refine List.mem_filter.mpr ⟨hmem, ?_⟩
          rw [hrl]
          simp only [rowMatchesKeywords, List.any_eq_true]
          exact ⟨t, ht, hts⟩
    · rw [if_neg hcol] at h
      cases h

/-- Witness for C6: the input `"medicamento; ; insumo"` parses to two
tokens; on `c6Df` the case-insensitively matching row is kept and the
null-description row is dropped. -/
theorem C6_keyword_filter_witness :
    (0, [("objetoCompra", sc "Compra de MEDICAMENTO hospitalar"), ("valor", nc 5)]) ∈ c6OutW.rows
    ∧ (1, [("objetoCompra", Cell.scalar Scalar.null), ("valor", nc 6)]) ∉ c6OutW.rows := by
  constructor
  · exact (C6_keyword_filter "medicamento; ; insumo" c6Df c6OutW (by rfl) _).mpr
      ⟨by decide, Or.inr ⟨"medicamento", by decide,
        "Compra de MEDICAMENTO hospitalar", by rfl, by rfl⟩⟩
  · decide

/-- C8: the displayed column list is exactly the requested columns that
exist in the frame, in the requested order (a subsequence of the request);
when the request is empty or none of its entries exist, the projection
falls back to every column of the frame; the projected table keeps every
row. -/
theorem C8_column_projection (selected : List String) (df : DataFrame) :
    ((∃ c ∈ selected, c ∈ df.cols) →
      List.Sublist (projectDf selected df).cols selected
      ∧ (∀ c, c ∈ (projectDf selected df).cols ↔ c ∈ selected ∧ c ∈ df.cols))
    ∧ ((∀ c ∈ selected, c ∉ df.cols) → (projectDf selected df).cols = df.cols)
    ∧ (projectDf selected df).rows.length = df.rows.length := by
  refine ⟨?_, ?_, ?_⟩
  · rintro ⟨c0, hc0, hc0m⟩
    have hne : selected.filter (fun c => c ∈ df.cols) ≠ [] := by
      intro hnil
      have hmem : c0 ∈ selected.filter (fun c => c ∈ df.cols) :=
        List.mem_filter.mpr ⟨hc0, by simpa using hc0m⟩
      rw [hnil] at hmem
      simp at hmem
    have hcols : (projectDf selected df).cols = selected.filter (fun c => c ∈ df.cols) := by
      show displayColumnsOf selected df = _
      unfold displayColumnsOf
      rw [if_neg hne]
    rw [hcols]
    refine ⟨List.filter_sublist _, fun c => ?_⟩
    simp [List.mem_filter]
  · intro hall
    have hnil : selected.filter (fun c => c ∈ df.cols) = [] := by
      rw [List.filter_eq_nil_iff]
      intro c hc
      simpa using hall c hc
    show displayColumnsOf selected df = df.cols
    unfold displayColumnsOf
    rw [if_pos hnil]
  · exact List.length_map _ _

/-- Witness for C8: projecting `c8Df` on `["c", "zz", "a"]` keeps exactly
`["c", "a"]` in that order; projecting on only-invalid names falls back to
all columns. -/
theorem C8_column_projection_witness :
    (List.Sublist (projectDf ["c", "zz", "a"] c8Df).cols ["c", "zz", "a"]
      ∧ (∀ c, c ∈ (projectDf ["c", "zz", "a"] c8Df).cols ↔
          c ∈ ["c", "zz", "a"] ∧ c ∈ c8Df.cols))
    ∧ (projectDf ["zz", "yy"] c8Df).cols = c8Df.cols :=
  ⟨(C8_column_projection ["c", "zz", "a"] c8Df).1 ⟨"c", by decide, by decide⟩,
   (C8_column_projection ["zz", "yy"] c8Df).2.1 (by decide)⟩

theorem bool_eq_of_iff {a b : Bool} (h : a = true ↔ b = true) : a = b := by
  cases a <;> cases b <;> simp_all

theorem isIllegal_iff (ch : Char) :
    isIllegalChar ch = true ↔ (ch.toNat ≤ 8 ∨ ch.toNat = 11 ∨ ch.toNat = 12 ∨
      (14 ≤ ch.toNat ∧ ch.toNat ≤ 31)) := by
  simp only [isIllegalChar, illegalRanges, List.any_cons, List.any_nil,
    Bool.or_eq_true, Bool.and_eq_true, decide_eq_true_eq, Bool.false_eq_true, or_false]
  omega

theorem notIllegal_arith (ch : Char) :
    (!(isIllegalChar ch)) = decide (¬(ch.toNat ≤ 8 ∨ ch.toNat = 11 ∨ ch.toNat = 12 ∨
      (14 ≤ ch.toNat ∧ ch.toNat ≤ 31))) := by
  apply bool_eq_of_iff
  rw [Bool.not_eq_true', decide_eq_true_eq]
  constructor
  · intro h hc
    rw [(isIllegal_iff ch).mpr hc] at h
    exact Bool.noConfusion h
  · intro h
    cases hb : isIllegalChar ch with
    | false => rfl
    | true => exact absurd ((isIllegal_iff ch).mp hb) h

/-- C9: `to_excel` serializes to a single sheet named `Biddings` whose
header is the column list and whose rows are the data rows without an
index column; every string cell has exactly the characters in
0x00-0x08, 0x0B, 0x0C, 0x0E-0x1F removed (all others kept in order), and
every non-string cell passes through unchanged. -/
theorem C9_to_excel_scrubs_and_serializes (df : DataFrame) :
    (to_excel df).sheetName = "Biddings"
    ∧ (to_excel df).header = df.cols
    ∧ (to_excel df).sheetRows.length = df.rows.length
    ∧ (∀ i r, df.rows.get? i = some r →
        (to_excel df).sheetRows.get? i = some (r.2.map (fun p => clean_value p.2)))
    ∧ (∀ s : String, ∃ s2 : String,
        clean_value (Cell.scalar (Scalar.str s)) = Cell.scalar (Scalar.str s2)
        ∧ s2.data = s.data.filter (fun ch => decide (¬(ch.toNat ≤ 8 ∨ ch.toNat = 11 ∨
            ch.toNat = 12 ∨ (14 ≤ ch.toNat ∧ ch.toNat ≤ 31)))))
    ∧ (∀ c : Cell, (∀ s, c ≠ Cell.scalar (Scalar.str s)) → clean_value c = c) := by
  refine ⟨rfl, rfl, ?_, ?_, ?_, ?_⟩
  · exact List.length_map _ _
  · intro i r hi
    show (df.rows.map _).get? i = _
    rw [List.get?_map, hi]
    rfl
  · intro s
    refine ⟨removeIllegal s, rfl, ?_⟩
    show s.data.filter (fun c => !(isIllegalChar c)) = _
    have hfun : (fun c : Char => !(isIllegalChar c)) =
        (fun ch : Char => decide (¬(ch.toNat ≤ 8 ∨ ch.toNat = 11 ∨ ch.toNat = 12 ∨
          (14 ≤ ch.toNat ∧ ch.toNat ≤ 31)))) := funext notIllegal_arith
    rw [hfun]
  · intro c hc
    cases c with
    | obj fl => rfl
    | scalar v =>
      cases v with
      | str s => exact absurd rfl (hc s)
      | null => rfl
      | num n => rfl
      | timestamp t => rfl

/-- Witness for C9: the control character 0x0B is removed from a concrete
cell and a numeric cell passes through. -/
theorem C9_to_excel_witness :
    (to_excel c9Df).sheetRows.get? 0 = some [clean_value (sc "a\x0Bb")]
    ∧ clean_value (nc 7) = nc 7 :=
  ⟨(C9_to_excel_scrubs_and_serializes c9Df).2.2.2.1 0 (0, [("desc", sc "a\x0Bb")]) (by rfl),
   (C9_to_excel_scrubs_and_serializes c9Df).2.2.2.2.2 (nc 7) (fun s h => by simp [nc] at h)⟩
